import Mathlib

/-
Shallow embedding of `cp4i-operators-installer.py`.

The program resolves operator metadata from documentation pages
(`OperatorHandler.populate`), filters the resolved operator map by a user
selection with two hard-coded mutual-exclusion rules
(`OperatorHandler.filter`), downloads and sanitizes catalog-source files
(`SubscriptionHandler.download_and_prepare`), and applies namespaces, an
OperatorGroup, catalog sources and subscriptions, each batch gated by a
confirmation prompt (`Utils.run_commands`).

External effects (HTTP, the `oc-ibm_pak` tool, `oc`, the filesystem walk)
are modelled as inputs; file writes and executed commands are modelled as
explicit output lists, in the order the program performs them.
-/

set_option autoImplicit false

namespace CP4I

/-- Python rendering of an optional value inside an f-string:
`None` becomes the literal text `None`. -/
def pyStr : Option String → String
  | none => "None"
  | some s => s

/-- Drop leading whitespace characters (Python `str.lstrip()`; whitespace per
`Char.isWhitespace`, which covers the ASCII whitespace Python strips). -/
def lstripChars : List Char → List Char
  | [] => []
  | c :: cs => if c.isWhitespace then lstripChars cs else c :: cs

/-- Python `s.lstrip()`. -/
def pyLstrip (s : String) : String := ⟨lstripChars s.data⟩

/-- Python `s.startswith(p)`. -/
def pyStartsWith (s p : String) : Bool := p.data.isPrefixOf s.data

/-- Python `s.strip()`: whitespace dropped at both ends. -/
def pyStrip (s : String) : String := ⟨(lstripChars (lstripChars s.data).reverse).reverse⟩

/-- Splitting on a single separator character, keeping empty pieces
(Python `s.split(sep)` for a one-character separator). -/
def splitCharAux (sep : Char) : List Char → List Char → List (List Char)
  | [], acc => [acc.reverse]
  | c :: cs, acc =>
    if c = sep then acc.reverse :: splitCharAux sep cs []
    else splitCharAux sep cs (c :: acc)

/-- Python `s.split(sep)` for a one-character separator. -/
def pySplit (s : String) (sep : Char) : List String :=
  (splitCharAux sep s.data []).map String.mk

/-- Whether `t` occurs inside `c` as a contiguous substring. -/
def infix_of (t : List Char) : List Char → Bool
  | [] => t.isEmpty
  | c :: cs => t.isPrefixOf (c :: cs) || infix_of t cs

/-- The `Operator` class (its `__init__` fields).  `literal_name`, `channel`,
`case_name`, `case_version`, `catsrc_name` and `command` all start as `None`
in the source and may stay `None`, hence `Option`. -/
structure Operator where
  friendly_name : String
  literal_name : Option String
  channel : Option String
  case_name : Option String
  case_version : Option String
  catsrc_name : Option String
  catsrc_files : List String
  command : Option String
  deriving DecidableEq

/- ---------------------------------------------------------------------
Python `dict` modelled as an association list in insertion order:
lookup returns the first binding, insertion updates in place or appends,
`pop` removes the key's binding.
--------------------------------------------------------------------- -/

/-- `d.get(k)`: first binding for `k`, if any. -/
def alget {κ α : Type} [DecidableEq κ] : List (κ × α) → κ → Option α
  | [], _ => none
  | e :: rest, k => if e.1 = k then some e.2 else alget rest k

/-- `d[k] = v`: update the binding in place if the key exists (keeping its
position, as Python dicts do), else append it. -/
def alinsert {κ α : Type} [DecidableEq κ] : List (κ × α) → κ → α → List (κ × α)
  | [], k, v => [(k, v)]
  | e :: rest, k, v => if e.1 = k then (k, v) :: rest else e :: alinsert rest k v

/-- `d.pop(k, None)`: drop the binding for `k` (dict keys are unique, so
dropping every binding with that key coincides with dropping the entry). -/
def alpop {κ α : Type} [DecidableEq κ] (m : List (κ × α)) (k : κ) : List (κ × α) :=
  m.filter (fun e => e.1 ≠ k)

/-- The operators map of the `Operators` singleton: keyed by
`operator.literal_name` (an `Option String`, since a scraped name can be
`None`); selection names are looked up as `some name`. -/
abbrev Dict := List (Option String × Operator)

/- ---------------------------------------------------------------------
OperatorHandler.filter (lines 155-170)
--------------------------------------------------------------------- -/

/-- Message of the exception raised for an unknown selection name. -/
def selection_error (name : String) : String :=
  "Operator " ++ name ++ " is not a valid operator name"

/-- The `for name in selection` loop building `filtered_operators`:
stops with the exception at the first unknown name. -/
def select_fold (m : Dict) : List String → Dict → Except String Dict
  | [], acc => .ok acc
  | name :: rest, acc =>
    match alget m (some name) with
    | none => .error (selection_error name)
    | some op => select_fold m rest (alinsert acc (some name) op)

/-- The non-`all` branch of `OperatorHandler.filter`. -/
def selectOperators (m : Dict) (sel : List String) : Except String Dict :=
  select_fold m sel []

/-- The two hard-coded exclusion rules at the end of `OperatorHandler.filter`:
if `ibm-apiconnect` is present drop `datapower-operator`; if
`ibm-eventstreams` is present drop `ibm-eem-operator`. -/
def applyExclusions (m : Dict) : Dict :=
  let m1 := if (alget m (some "ibm-apiconnect")).isSome
    then alpop m (some "datapower-operator") else m
  if (alget m1 (some "ibm-eventstreams")).isSome
    then alpop m1 (some "ibm-eem-operator") else m1

/-- The exclusion rules as (A bundles B) pairs, read off the two `if`
statements of `OperatorHandler.filter`. -/
def exclusion_rules : List (String × String) :=
  [("ibm-apiconnect", "datapower-operator"), ("ibm-eventstreams", "ibm-eem-operator")]

/-- `OperatorHandler.filter`: returns the map held by the singleton after the
call together with the raised error, if any.  When an exception is raised
mid-selection, `Operators().set(...)` has not run, so the map is unchanged
and the exclusion rules are never reached. -/
def OperatorHandler_filter (m : Dict) (sel : List String) : Dict × Option String :=
  if "all" ∈ sel then (applyExclusions m, none)
  else
    match selectOperators m sel with
    | .error e => (m, some e)
    | .ok d => (applyExclusions d, none)

/- ---------------------------------------------------------------------
OperatorHandler.populate (lines 84-153)

HTTP fetching and HTML/YAML parsing are external; the two documentation
pages are modelled as already-parsed inputs:
  * page1: one entry per bullet, `(friendly_name, parsed code block)`;
    `none` stands for a bullet without a following code block or whose
    code block is not a YAML mapping (including the caught YAMLError case,
    which only prints and continues).
  * page2: `none` when the "Catalog sources for operators" header (or its
    list) is absent, else one entry per list item
    `(friendly_name, parsed export command)`, where `none` for the parsed
    command stands for a regex mismatch in `set_command`, which raises.
--------------------------------------------------------------------- -/

/-- The fields `populate` reads from the YAML code block of a bullet:
`metadata.name`, `spec.channel`, `spec.source` (each may be missing). -/
structure SubDoc where
  meta_name : Option String
  channel : Option String
  source : Option String
  deriving DecidableEq

/-- The command string `Operator.set_command` builds from the extracted
CASE name and version. -/
def ibm_pak_command (cn cv : String) : String :=
  "export IBMPAK_HOME=. && ./oc-ibm_pak get " ++ cn ++ " --version " ++ cv ++
    " && ./oc-ibm_pak generate mirror-manifests " ++ cn ++ " icr.io --version " ++ cv

/-- First page loop: build `tmp_operators`, keyed by friendly name. -/
def mk_tmp (page1 : List (String × Option SubDoc)) : List (String × Operator) :=
  page1.foldl
    (fun tmp e =>
      match e.2 with
      | none => tmp
      | some doc =>
        alinsert tmp e.1
          { friendly_name := e.1, literal_name := doc.meta_name,
            channel := doc.channel, case_name := none, case_version := none,
            catsrc_name := doc.source, catsrc_files := [], command := none })
    []

/-- Second page loop: for each list item whose friendly name is a key of
`tmp_operators`, run `set_command` on the shared operator object; a regex
mismatch raises (propagating to the outer `except`). -/
def set_commands (tmp : List (String × Operator)) :
    List (String × Option (String × String)) → Except String (List (String × Operator))
  | [] => .ok tmp
  | e :: rest =>
    match alget tmp e.1 with
    | none => set_commands tmp rest
    | some _ =>
      match e.2 with
      | none => .error "Could not match pattern for input string"
      | some (cn, cv) =>
        set_commands
          (tmp.map (fun b =>
            if b.1 = e.1 then
              (b.1, { b.2 with case_name := some cn, case_version := some cv,
                               command := some (ibm_pak_command cn cv) })
            else b))
          rest

/-- Final loop of `populate`: re-key by `operator.literal_name`, keeping only
operators whose `case_version` was set. -/
def finalize (tmp : List (String × Operator)) : Dict :=
  tmp.foldl
    (fun acc e =>
      if e.2.case_version ≠ none then alinsert acc e.2.literal_name e.2 else acc)
    []

/-- `OperatorHandler.populate`: the whole body.  The `202x` check happens
before the `try` block; a `set_command` failure is wrapped by the outer
`except` into the `Is version ... valid?` message. -/
def populate (version : String) (page1 : List (String × Option SubDoc))
    (page2 : Option (List (String × Option (String × String)))) : Except String Dict :=
  if pyStartsWith version "202" then
    .error "Versions 202x are not supported. Use 202x branch instead"
  else
    match page2 with
    | none => .ok (finalize (mk_tmp page1))
    | some entries =>
      match set_commands (mk_tmp page1) entries with
      | .error e => .error ("Is version " ++ version ++ " valid?, " ++ e)
      | .ok tmp2 => .ok (finalize tmp2)

/- ---------------------------------------------------------------------
SubscriptionHandler.download_and_prepare (lines 191-217)

The `os.walk` result and the file contents are inputs; a file is a list of
lines (each line of `fileinput` carries its newline; lines are modelled
without it, which is equivalent for the startswith tests and the rewrite).
--------------------------------------------------------------------- -/

/-- One in-place rewrite pass over a catalog-source file: keep every line
except those whose `lstrip()` starts with `namespace:`. -/
def sanitize_file (lines : List String) : List String :=
  lines.filter (fun l => !(pyStartsWith (pyLstrip l) "namespace:"))

/-- The names collected while scanning a catalog-source file: for every line
whose `lstrip()` starts with `name:`, the value `line.split(":")[1].strip()`. -/
def collect_catalog_names (lines : List String) : List String :=
  lines.filterMap
    (fun l =>
      if pyStartsWith (pyLstrip l) "name:" then some (pyStrip ((pySplit l ':').getD 1 ""))
      else none)

/-- The body of the per-operator loop of `download_and_prepare` for one
operator: `catsrc_files` is set from the filesystem walk, each file is
rewritten in place with `sanitize_file`, and the collected candidate names
go into the local list `catalog_sources`, which the function then discards.
Returned: the updated operator, the updated file contents, and the
collected (unused) candidate list.  Note that no field other than
`catsrc_files` is touched: in particular `catsrc_name` keeps the value
assigned in `populate`. -/
def download_and_prepare_op (walk : List String) (content : String → List String)
    (op : Operator) : Operator × (String → List String) × List String :=
  ({ op with catsrc_files := walk },
   fun f => if f ∈ walk then sanitize_file (content f) else content f,
   walk.flatMap (fun f => collect_catalog_names (content f)))

/-- Modelled from the spec: the catalog-binding heuristic of §4.4 / claim C1
(absent from the source, which never reads the collected candidates).
Search tokens are derived from the package identifier by stripping the
vendor token and the role token `operator` and splitting on `-`. -/
def spec_search_tokens (packageId : String) : List String :=
  (pySplit packageId '-').filter (fun t => t ≠ "" ∧ t ≠ "ibm" ∧ t ≠ "operator")

/-- Modelled from the spec: scan the pooled candidate names in discovery
order; the first candidate containing any search token as a substring wins;
otherwise fall back to the documented default shared catalog-source name. -/
def spec_bind (dflt : String) (packageId : String) (candidates : List String) : String :=
  match candidates.find?
      (fun c => (spec_search_tokens packageId).any (fun t => infix_of t.data c.data)) with
  | some c => c
  | none => dflt

/- ---------------------------------------------------------------------
Utils.run_commands (lines 312-332) and the apply stages (lines 219-277).

`run_commands` prints the batch, then (unless non-interactive) loops until
the user answers `c` (skip the batch) or `a` (run it); the executed command
list is the observable cluster effect.  File writes happen in the callers
before `run_commands` is reached and are modelled as explicit lists of
`(filename, content)` pairs.
--------------------------------------------------------------------- -/

/-- The user's answer at a confirmation prompt (the input loop repeats until
one of these two is typed; Ctrl-C is process termination, not an answer). -/
inductive Answer where
  | apply
  | cont
  deriving DecidableEq

/-- `Utils.run_commands`: the commands actually executed. -/
def run_commands (cmds : List String) (non_interactive : Bool) (ans : Answer) :
    List String :=
  if non_interactive then cmds
  else
    match ans with
    | .cont => []
    | .apply => cmds

/-- `subscription-<literal_name>.yaml`.  (Python concatenates with `+`, which
would raise `TypeError` on a `None` name; operators reaching this point are
keyed by their literal name.) -/
def sub_filename (op : Operator) : String :=
  "subscription-" ++ pyStr op.literal_name ++ ".yaml"

/-- The Subscription manifest f-string of `apply_subscriptions`
(lines 232-241), including the trailing blanks after the two name fields. -/
def subscription_yaml (catsrc_ns : String) (op : Operator) : String :=
  "apiVersion: operators.coreos.com/v1alpha1\nkind: Subscription\nmetadata:\n  name: "
    ++ pyStr op.literal_name ++ " \nspec:\n  channel: " ++ pyStr op.channel
    ++ "\n  name: " ++ pyStr op.literal_name ++ " \n  source: " ++ pyStr op.catsrc_name
    ++ "\n  sourceNamespace: " ++ catsrc_ns ++ "\n"

/-- The `oc apply` command queued for one subscription. -/
def sub_apply_cmd (target_ns : String) (op : Operator) : String :=
  "oc apply -n " ++ target_ns ++ " -f " ++ sub_filename op

/-- The `oc apply` commands queued by `apply_subscriptions`, one per operator,
in map order. -/
def subscription_cmds (target_ns : String) (ops : List Operator) : List String :=
  ops.map (sub_apply_cmd target_ns)

/-- `SubscriptionHandler.apply_subscriptions` (lines 228-250): for every
operator in map order, the manifest file is written (no condition on any
field), then the whole command batch goes through one confirmation gate.
Returns (files written, commands executed). -/
def apply_subscriptions_effects (catsrc_ns target_ns : String) (ops : List Operator)
    (non_interactive : Bool) (ans : Answer) : List (String × String) × List String :=
  (ops.map (fun op => (sub_filename op, subscription_yaml catsrc_ns op)),
   run_commands (subscription_cmds target_ns ops) non_interactive ans)

/-- `operatorgroup-<target_ns>.yaml`. -/
def og_filename (target_ns : String) : String :=
  "operatorgroup-" ++ target_ns ++ ".yaml"

/-- `list(set([catsrc_ns, target_ns]))` of `handle_namespaces`: the
deduplicated namespace pair (set iteration order modelled as first
occurrence). -/
def namespaces_dedup (catsrc_ns target_ns : String) : List String :=
  List.eraseDups [catsrc_ns, target_ns]

/-- The `oc new-project` commands of `handle_namespaces`, one per namespace
that `oc get ns` reports missing (`missing` models that probe). -/
def ns_create_cmds (catsrc_ns target_ns : String) (missing : String → Bool) :
    List String :=
  ((namespaces_dedup catsrc_ns target_ns).filter missing).map
    (fun ns => "oc new-project " ++ ns)

/-- The OperatorGroup apply command of `handle_namespaces`, emitted only when
the target namespace is not `openshift-operators`. -/
def operatorgroup_cmds (target_ns : String) : List String :=
  if target_ns ≠ "openshift-operators" then
    ["oc apply -n " ++ target_ns ++ " -f " ++ og_filename target_ns]
  else []

/-- `SubscriptionHandler.handle_namespaces` (lines 252-277): namespace
creation, then (conditionally) the OperatorGroup apply. -/
def handle_namespaces_cmds (catsrc_ns target_ns : String) (missing : String → Bool) :
    List String :=
  ns_create_cmds catsrc_ns target_ns missing ++ operatorgroup_cmds target_ns

/-- The catalog-source apply commands of `apply_catalog_sources`, one per
`catsrc_files` entry of each operator, in map order. -/
def catalog_source_cmds (catsrc_ns : String) (ops : List Operator) : List String :=
  ops.flatMap (fun op => op.catsrc_files.map (fun f => "oc apply -n " ++ catsrc_ns ++ " -f " ++ f))

/-- `SubscriptionHandler.apply_catalog_sources` (lines 219-226): it calls
`handle_namespaces` first, then queues the catalog-source applies. -/
def apply_catalog_sources_cmds (catsrc_ns target_ns : String) (missing : String → Bool)
    (ops : List Operator) : List String :=
  handle_namespaces_cmds catsrc_ns target_ns missing ++ catalog_source_cmds catsrc_ns ops

/-- The full mutating command sequence of `deploy` (lines 376-380):
`apply_catalog_sources` (namespaces, OperatorGroup, catalog sources) followed
by `apply_subscriptions`. -/
def deploy_cmds (catsrc_ns target_ns : String) (missing : String → Bool)
    (ops : List Operator) : List String :=
  apply_catalog_sources_cmds catsrc_ns target_ns missing ops
    ++ subscription_cmds target_ns ops

/-- Modelled from the spec: the apply order stated by §4.6 / claim C5 —
namespaces, then catalog sources, then the OperatorGroup, then
subscriptions. -/
def spec_claimed_deploy_cmds (catsrc_ns target_ns : String) (missing : String → Bool)
    (ops : List Operator) : List String :=
  ns_create_cmds catsrc_ns target_ns missing
    ++ catalog_source_cmds catsrc_ns ops
    ++ operatorgroup_cmds target_ns
    ++ subscription_cmds target_ns ops

/-- Modelled from the spec: the fragility reorder stated by §4.6 / claim C4
(absent from the source) — subscriptions of operators whose literal name is
in the fragility list are moved, stably, after all other subscriptions. -/
def stable_fragile_reorder (fragile : List String) (ops : List Operator) : List Operator :=
  ops.filter (fun op => pyStr op.literal_name ∉ fragile)
    ++ ops.filter (fun op => pyStr op.literal_name ∈ fragile)

/-- A string longer than every member of `L`, hence not a member of `L`. -/
def fresh_name (L : List String) : String :=
  String.mk (List.replicate ((L.map String.length).foldr Nat.max 0 + 1) 'x')

/-- A minimal operator record with the given literal name, as used to probe
the subscription ordering. -/
def mk_sub_op (s : String) : Operator :=
  { friendly_name := s, literal_name := some s, channel := some "chan",
    case_name := none, case_version := none, catsrc_name := some "src",
    catsrc_files := [], command := none }

/- ---------------------------------------------------------------------
Concrete fixtures used to evaluate the definitions on explicit inputs.
--------------------------------------------------------------------- -/

/-- An operator as it leaves `populate`: `catsrc_name` carries the `source`
field scraped from the documentation YAML; `c` lets two otherwise identical
records differ only in that scraped value. -/
def c1_op (c : Option String) : Operator :=
  { friendly_name := "X", literal_name := some "x-op", channel := some "ch",
    case_name := some "ibm-foo-operator", case_version := some "1.0.0",
    catsrc_name := c, catsrc_files := [], command := none }

/-- One downloaded catalog-source file found by the walk. -/
def c1_walk : List String := ["catalog-sources.yaml"]

/-- Its content: a `name:` line (candidate `bar-catalog`) and a
`namespace:` line. -/
def c1_content : String → List String := fun _ =>
  ["apiVersion: operators.coreos.com/v1alpha1",
   "  name: bar-catalog",
   "  namespace: openshift-marketplace"]

/-- An operator whose `channel` stayed `None` after metadata resolution. -/
def c2_op : Operator :=
  { friendly_name := "NoChan", literal_name := some "no-chan-op", channel := none,
    case_name := some "ibm-no-chan-case", case_version := some "1.0.0",
    catsrc_name := some "some-catalog", catsrc_files := [], command := none }

/-- A fully populated operator used to probe the confirmation gate. -/
def c3_op : Operator :=
  { friendly_name := "MQ", literal_name := some "ibm-mq", channel := some "v3.0",
    case_name := some "ibm-mq-case", case_version := some "3.0.0",
    catsrc_name := some "ibmmq-operator-catalogsource", catsrc_files := [], command := none }

/-- An operator with one downloaded catalog-source file, used to lay out the
deploy plan. -/
def c5_op : Operator :=
  { friendly_name := "MQ", literal_name := some "ibm-mq", channel := some "v3.0",
    case_name := some "ibm-mq-case", case_version := some "3.0.0",
    catsrc_name := some "cat", catsrc_files := ["cs1.yaml"], command := none }

/-- Resolution fixture: one bullet whose code block parses. -/
def c6_page1 : List (String × Option SubDoc) :=
  [("Foo Operator",
    some { meta_name := some "foo-op", channel := some "v1", source := some "foo-catalog" })]

/-- Resolution fixture: the catalog-sources page lists a CASE for the same
friendly name. -/
def c6_page2 : Option (List (String × Option (String × String))) :=
  some [("Foo Operator", some ("ibm-foo-case", "1.2.3"))]

/-- What `populate` builds from `c6_page1`/`c6_page2`. -/
def c6_resolved : Dict :=
  [(some "foo-op",
    { friendly_name := "Foo Operator", literal_name := some "foo-op",
      channel := some "v1", case_name := some "ibm-foo-case",
      case_version := some "1.2.3", catsrc_name := some "foo-catalog",
      catsrc_files := [],
      command := some (ibm_pak_command "ibm-foo-case" "1.2.3") })]

/-- A generic operator record keyed by its literal name. -/
def op_named (s : String) : Operator :=
  { friendly_name := s, literal_name := some s, channel := some "ch",
    case_name := some s, case_version := some "1.0.0",
    catsrc_name := some "cat", catsrc_files := [], command := none }

/-- Map fixture holding both members of the first exclusion pair plus a
bystander. -/
def c7_map : Dict :=
  [(some "ibm-apiconnect", op_named "ibm-apiconnect"),
   (some "datapower-operator", op_named "datapower-operator"),
   (some "ibm-mq", op_named "ibm-mq")]

/-- Small map fixture for the selection-error claims. -/
def c8_map : Dict := [(some "ibm-mq", op_named "ibm-mq")]

/-- Map fixture for the `all` sentinel claim. -/
def c10_map : Dict :=
  [(some "ibm-aspera-hsts-operator", op_named "ibm-aspera-hsts-operator")]

/- ---------------------------------------------------------------------
Helper lemmas about the dict model and the resolution fold.
--------------------------------------------------------------------- -/

theorem alget_alinsert {κ α : Type} [DecidableEq κ] (m : List (κ × α)) (k k2 : κ) (v : α) :
    alget (alinsert m k v) k2 = if k = k2 then some v else alget m k2 := by
  induction m with
  | nil =>
    by_cases h : k = k2 <;> simp [alinsert, alget, h]
  | cons e rest ih =>
    by_cases h1 : e.1 = k
    · by_cases h2 : k = k2 <;> simp [alinsert, alget, h1, h2]
    · by_cases h2 : e.1 = k2
      · have h3 : ¬ k = k2 := fun hk => h1 (hk ▸ h2)
        have h4 : ¬ k2 = k := fun hk => h3 hk.symm
        simp [alinsert, alget, h1, h2, h3, h4]
      · simp [alinsert, alget, h1, h2, ih]

theorem alget_alpop {κ α : Type} [DecidableEq κ] (m : List (κ × α)) (k k2 : κ) :
    alget (alpop m k) k2 = if k = k2 then none else alget m k2 := by
  induction m with
  | nil => simp [alpop, alget]
  | cons e rest ih =>
    by_cases h1 : e.1 = k
    · by_cases h3 : k = k2
      · simp_all [alpop, List.filter_cons, alget]
      · have h4 : ¬ e.1 = k2 := by rw [h1]; exact h3
        simp_all [alpop, List.filter_cons, alget]
    · by_cases h5 : e.1 = k2
      · have h3 : ¬ k = k2 := fun hh => h1 (by rw [hh, ← h5])
        simp_all [alpop, List.filter_cons, alget]
      · by_cases h3 : k = k2 <;> simp_all [alpop, List.filter_cons, alget]

theorem map_fst_alinsert {κ α : Type} [DecidableEq κ] (m : List (κ × α)) (k : κ) (v : α) :
    (alinsert m k v).map Prod.fst =
      if k ∈ m.map Prod.fst then m.map Prod.fst else m.map Prod.fst ++ [k] := by
  induction m with
  | nil => simp [alinsert]
  | cons e rest ih =>
    by_cases h : e.1 = k
    · simp [alinsert, h]
    · have h2 : ¬ k = e.1 := fun hh => h hh.symm
      by_cases h3 : k ∈ rest.map Prod.fst
      · simp [alinsert, h, ih, h2, h3]
      · simp [alinsert, h, ih, h2, h3]

theorem nodup_map_fst_alinsert {κ α : Type} [DecidableEq κ] (m : List (κ × α)) (k : κ) (v : α)
    (h : (m.map Prod.fst).Nodup) : ((alinsert m k v).map Prod.fst).Nodup := by
  rw [map_fst_alinsert]
  by_cases h2 : k ∈ m.map Prod.fst
  · simpa [h2] using h
  · simp [h2, List.nodup_append, h]

theorem nodup_finalize_fold (tmp : List (String × Operator)) :
    ∀ acc : Dict, (acc.map Prod.fst).Nodup →
      ((tmp.foldl
          (fun acc e =>
            if e.2.case_version ≠ none then alinsert acc e.2.literal_name e.2 else acc)
          acc).map Prod.fst).Nodup := by
  induction tmp with
  | nil => intro acc h; simpa using h
  | cons e rest ih =>
    intro acc h
    simp only [List.foldl_cons]
    apply ih
    by_cases hc : e.2.case_version ≠ none
    · simpa [hc] using nodup_map_fst_alinsert acc e.2.literal_name e.2 h
    · simpa [hc] using h

theorem nodup_finalize (tmp : List (String × Operator)) :
    ((finalize tmp).map Prod.fst).Nodup :=
  nodup_finalize_fold tmp [] (by simp)

theorem select_fold_ok (m : Dict) (sel : List String) :
    (∀ n ∈ sel, (alget m (some n)).isSome) →
    ∀ acc : Dict, ∃ d, select_fold m sel acc = .ok d ∧
      ∀ k, alget d k = if k ∈ sel.map Option.some then alget m k else alget acc k := by
  induction sel with
  | nil =>
    intro _ acc
    exact ⟨acc, rfl, fun k => by simp⟩
  | cons name rest ih =>
    intro hv acc
    have h0 : (alget m (some name)).isSome := hv name (by simp)
    obtain ⟨op, hop⟩ := Option.isSome_iff_exists.mp h0
    obtain ⟨d, hd, hget⟩ :=
      ih (fun n hn => hv n (by simp [hn])) (alinsert acc (some name) op)
    refine ⟨d, by simp [select_fold, hop, hd], fun k => ?_⟩
    rw [hget k, alget_alinsert]
    by_cases h1 : k ∈ rest.map Option.some
    · simp [h1]
    · by_cases h2 : some name = k
      · subst h2
        simp [hop]
      · have h2b : ¬ k = some name := fun hh => h2 hh.symm
        have h3 : ¬ k ∈ (name :: rest).map Option.some := by
          simp only [List.map_cons, List.mem_cons]
          rintro (rfl | hk)
          · exact h2 rfl
          · exact h1 hk
        simp [h1, h2, h2b, h3]

theorem select_fold_error (m : Dict) (sel : List String) :
    (∃ n ∈ sel, alget m (some n) = none) →
    ∀ acc : Dict, ∃ b ∈ sel, alget m (some b) = none ∧
      select_fold m sel acc = .error (selection_error b) := by
  induction sel with
  | nil => rintro ⟨n, hn, _⟩; cases hn
  | cons name rest ih =>
    rintro ⟨n, hn, hnone⟩ acc
    cases hax : alget m (some name) with
    | none =>
      exact ⟨name, by simp, hax, by simp [select_fold, hax]⟩
    | some op =>
      have hr : n ∈ rest := by
        rcases List.mem_cons.mp hn with rfl | hk
        · rw [hax] at hnone; cases hnone
        · exact hk
      obtain ⟨b, hb, hbn, hrun⟩ := ih ⟨n, hr, hnone⟩ (alinsert acc (some name) op)
      exact ⟨b, by simp [hb], hbn, by simp [select_fold, hax, hrun]⟩

theorem alget_applyExclusions (d : Dict) (x : Option String) :
    alget (applyExclusions d) x =
      if x = some "datapower-operator" ∧ (alget d (some "ibm-apiconnect")).isSome then
        none
      else if x = some "ibm-eem-operator" ∧ (alget d (some "ibm-eventstreams")).isSome then
        none
      else alget d x := by
  have e1 : alget (alpop d (some "datapower-operator")) (some "ibm-eventstreams") =
      alget d (some "ibm-eventstreams") := by
    rw [alget_alpop]; simp
  by_cases g1 : (alget d (some "ibm-apiconnect")).isSome
  · by_cases g2 : (alget d (some "ibm-eventstreams")).isSome
    · have hres : applyExclusions d =
          alpop (alpop d (some "datapower-operator")) (some "ibm-eem-operator") := by
        simp only [applyExclusions]
        rw [if_pos g1, if_pos (by rw [e1]; exact g2)]
      rw [hres, alget_alpop, alget_alpop]
      by_cases hx1 : x = some "datapower-operator"
      · subst hx1; simp [g1]
      · by_cases hx2 : x = some "ibm-eem-operator"
        · subst hx2; simp [g2]
        · have hx1s : ¬ (some "datapower-operator" : Option String) = x :=
            fun h => hx1 h.symm
          have hx2s : ¬ (some "ibm-eem-operator" : Option String) = x :=
            fun h => hx2 h.symm
          simp [hx1, hx2, hx1s, hx2s]
    · have hres : applyExclusions d = alpop d (some "datapower-operator") := by
        simp only [applyExclusions]
        rw [if_pos g1, if_neg (by rw [e1]; exact g2)]
      rw [hres, alget_alpop]
      by_cases hx1 : x = some "datapower-operator"
      · subst hx1; simp [g1]
      · by_cases hx2 : x = some "ibm-eem-operator"
        · subst hx2; simp [g2]
        · have hx1s : ¬ (some "datapower-operator" : Option String) = x :=
            fun h => hx1 h.symm
          simp [hx1, hx2, hx1s]
  · by_cases g2 : (alget d (some "ibm-eventstreams")).isSome
    · have hres : applyExclusions d = alpop d (some "ibm-eem-operator") := by
        simp only [applyExclusions]
        rw [if_neg g1, if_pos g2]
      rw [hres, alget_alpop]
      by_cases hx2 : x = some "ibm-eem-operator"
      · subst hx2; simp [g1, g2]
      · have hx2s : ¬ (some "ibm-eem-operator" : Option String) = x :=
          fun h => hx2 h.symm
        simp [g1, hx2, hx2s]
    · have hres : applyExclusions d = d := by
        simp only [applyExclusions]
        rw [if_neg g1, if_neg g2]
      rw [hres]
      simp [g1, g2]

theorem le_foldr_max (L : List String) (s : String) (h : s ∈ L) :
    s.length ≤ (L.map String.length).foldr Nat.max 0 := by
  induction L with
  | nil => cases h
  | cons a as ih =>
    rcases List.mem_cons.mp h with rfl | h1
    · exact Nat.le_max_left _ _
    · exact Nat.le_trans (ih h1) (Nat.le_max_right _ _)

theorem fresh_name_length (L : List String) :
    (fresh_name L).length = (L.map String.length).foldr Nat.max 0 + 1 := by
  simp [fresh_name, String.length]

theorem fresh_name_not_mem (L : List String) : fresh_name L ∉ L := by
  intro h
  have h1 := le_foldr_max L _ h
  rw [fresh_name_length] at h1
  omega

/- ---------------------------------------------------------------------
Claim theorems.
--------------------------------------------------------------------- -/

/-- Claim C1, counterexample.  The claim makes the bound catalog-source name
a function of the record's package identifier and the pooled candidate names
collected during sanitization.  Two records with the same `case_name`
(`ibm-foo-operator`) and the same downloaded files (pooled candidates
`[bar-catalog]`, on which the spec's heuristic falls back to the default for
any default name) leave `download_and_prepare` with different bound names —
each keeps the `source` value scraped in `populate` — so the bound name is
not determined by those inputs and no fallback takes place. -/
theorem C1_counterexample :
    (c1_op (some "alpha")).case_name = (c1_op (some "beta")).case_name ∧
    (download_and_prepare_op c1_walk c1_content (c1_op (some "alpha"))).2.2 =
      (download_and_prepare_op c1_walk c1_content (c1_op (some "beta"))).2.2 ∧
    (download_and_prepare_op c1_walk c1_content (c1_op (some "alpha"))).2.2 =
      ["bar-catalog"] ∧
    ((download_and_prepare_op c1_walk c1_content (c1_op (some "alpha"))).1).catsrc_name =
      some "alpha" ∧
    ((download_and_prepare_op c1_walk c1_content (c1_op (some "beta"))).1).catsrc_name =
      some "beta" ∧
    spec_bind "ibm-operator-catalog" "ibm-foo-operator"
      (download_and_prepare_op c1_walk c1_content (c1_op (some "alpha"))).2.2 =
      "ibm-operator-catalog" := by
  refine ⟨rfl, rfl, ?_, rfl, rfl, ?_⟩ <;> decide

/-- Claim C1, amended: the bound catalog-source name of an operator record is
the `spec.source` value scraped during metadata resolution; the candidate
names collected while sanitizing the downloaded catalog-source files are
discarded, so `download_and_prepare` changes neither the bound name nor the
Subscription manifest later rendered from the record. -/
theorem C1_holds (walk : List String) (content : String → List String)
    (op : Operator) (catsrc_ns : String) :
    ((download_and_prepare_op walk content op).1).catsrc_name = op.catsrc_name ∧
    subscription_yaml catsrc_ns ((download_and_prepare_op walk content op).1) =
      subscription_yaml catsrc_ns op :=
  ⟨rfl, rfl⟩

/-- Claim C2, counterexample.  For an operator whose `channel` is `None`,
`apply_subscriptions` raises no error: it writes the manifest file — with the
channel rendered as the literal text `None` — and queues its `oc apply`
command like any other. -/
theorem C2_counterexample :
    c2_op.channel = none ∧
    (apply_subscriptions_effects "openshift-marketplace" "openshift-operators"
        [c2_op] true Answer.apply).1 =
      [("subscription-no-chan-op.yaml",
        "apiVersion: operators.coreos.com/v1alpha1\nkind: Subscription\nmetadata:\n  name: no-chan-op \nspec:\n  channel: None\n  name: no-chan-op \n  source: some-catalog\n  sourceNamespace: openshift-marketplace\n")] ∧
    (apply_subscriptions_effects "openshift-marketplace" "openshift-operators"
        [c2_op] true Answer.apply).2 =
      ["oc apply -n openshift-operators -f subscription-no-chan-op.yaml"] :=
  ⟨rfl, rfl, rfl⟩

/-- Claim C2, amended: manifest generation never fails and never skips an
operator — every operator of the batch, including one whose `channel` is
`None`, has its subscription manifest written to disk. -/
theorem C2_holds (catsrc_ns target_ns : String) (non_interactive : Bool)
    (ans : Answer) (ops : List Operator) (op : Operator) (h : op ∈ ops) :
    (sub_filename op, subscription_yaml catsrc_ns op) ∈
      (apply_subscriptions_effects catsrc_ns target_ns ops non_interactive ans).1 :=
  List.mem_map_of_mem (fun op => (sub_filename op, subscription_yaml catsrc_ns op)) h

/-- Claim C2, witness: the amended theorem applied to a one-operator batch
whose operator has no channel. -/
theorem C2_witness :
    c2_op ∈ [c2_op] ∧ c2_op.channel = none ∧
    (sub_filename c2_op, subscription_yaml "openshift-marketplace" c2_op) ∈
      (apply_subscriptions_effects "openshift-marketplace" "openshift-operators"
        [c2_op] true Answer.apply).1 :=
  ⟨by decide, rfl,
    C2_holds "openshift-marketplace" "openshift-operators" true Answer.apply
      [c2_op] c2_op (by decide)⟩

/-- Claim C3, counterexample.  Declining at the confirmation gate of
`apply_subscriptions` executes no command, but the subscription manifest was
already written while the batch was being assembled, so the filesystem
manifest set is not as it was before the batch. -/
theorem C3_counterexample :
    (apply_subscriptions_effects "openshift-marketplace" "openshift-operators"
        [c3_op] false Answer.cont).2 = [] ∧
    ((apply_subscriptions_effects "openshift-marketplace" "openshift-operators"
        [c3_op] false Answer.cont).1).map Prod.fst = ["subscription-ibm-mq.yaml"] :=
  ⟨rfl, rfl⟩

/-- Claim C3, amended: declining at a confirmation gate does guarantee that
none of that batch's cluster-mutating commands executes, but the manifest
files written during batch assembly remain on disk (they are written before
the gate is reached). -/
theorem C3_holds (catsrc_ns target_ns : String) (ops : List Operator)
    (cmds : List String) :
    run_commands cmds false Answer.cont = [] ∧
    (apply_subscriptions_effects catsrc_ns target_ns ops false Answer.cont).2 = [] ∧
    (apply_subscriptions_effects catsrc_ns target_ns ops false Answer.cont).1 =
      ops.map (fun op => (sub_filename op, subscription_yaml catsrc_ns op)) :=
  ⟨rfl, rfl, rfl⟩

/-- Claim C9: sanitization is idempotent — a second pass over an
already-sanitized file changes nothing, and no namespace-declaration line
survives the first pass. -/
theorem C9_holds (lines : List String) :
    sanitize_file (sanitize_file lines) = sanitize_file lines ∧
    ∀ l ∈ sanitize_file lines, pyStartsWith (pyLstrip l) "namespace:" = false := by
  constructor
  · exact List.filter_eq_self.mpr (fun a ha => (List.mem_filter.mp ha).2)
  · intro l hl
    have h := (List.mem_filter.mp hl).2
    simpa using h

/-- Claim C10: when the selection contains the sentinel `all`, the filter
keeps the whole resolved map (the exclusion rules still apply afterwards)
and raises no error, no matter what other names — valid or not — the
selection carries: they are never looked up. -/
theorem C10_holds (m : Dict) (sel : List String) (h : "all" ∈ sel) :
    OperatorHandler_filter m sel = (applyExclusions m, none) := by
  simp [OperatorHandler_filter, h]

/-- Claim C10, witness: a selection holding `all` next to a name that is not
in the resolved map succeeds and keeps the full map. -/
theorem C10_witness :
    "all" ∈ (["all", "bogus-name"] : List String) ∧
    alget c10_map (some "bogus-name") = none ∧
    OperatorHandler_filter c10_map ["all", "bogus-name"] = (applyExclusions c10_map, none) :=
  ⟨by decide, by decide, C10_holds c10_map ["all", "bogus-name"] (by decide)⟩

/-- Claim C4, counterexample.  No fixed non-empty fragility list can describe
the subscription order: the commands of `apply_subscriptions` follow the
operator map order for every input, so for any non-empty list a batch holding
a listed name first and an unlisted name second refutes the claimed stable
move-to-the-end reorder. -/
theorem C4_counterexample :
    ¬ ∃ fragile : List String, fragile ≠ [] ∧
        ∀ (target_ns : String) (ops : List Operator),
          subscription_cmds target_ns ops =
            subscription_cmds target_ns (stable_fragile_reorder fragile ops) := by
  rintro ⟨L, hne, hall⟩
  obtain ⟨f, hf⟩ := List.exists_mem_of_ne_nil L hne
  have hn : fresh_name L ∉ L := fresh_name_not_mem L
  have hf2 : pyStr (mk_sub_op f).literal_name ∈ L := hf
  have hn2 : pyStr (mk_sub_op (fresh_name L)).literal_name ∉ L := hn
  have h := hall "ns" [mk_sub_op f, mk_sub_op (fresh_name L)]
  have hre : stable_fragile_reorder L [mk_sub_op f, mk_sub_op (fresh_name L)] =
      [mk_sub_op (fresh_name L), mk_sub_op f] := by
    simp [stable_fragile_reorder, List.filter_cons, hf2, hn2]
  rw [hre] at h
  simp only [subscription_cmds, List.map_cons, List.map_nil, List.cons.injEq,
    and_true] at h
  have h1 : "oc apply -n " ++ "ns" ++ " -f " ++ ("subscription-" ++ f ++ ".yaml") =
      "oc apply -n " ++ "ns" ++ " -f " ++ ("subscription-" ++ fresh_name L ++ ".yaml") := h.1
  have hlen := congrArg String.length h1
  simp only [String.length_append] at hlen
  have hle := le_foldr_max L f hf
  have hfl := fresh_name_length L
  omega

/-- Claim C4, amended: no fragility reorder exists — the subscription apply
commands are emitted one per operator in the operator map's iteration order,
unchanged, and they form the final segment of the deploy plan (so the other
action kinds are indeed not reordered either). -/
theorem C4_holds (catsrc_ns target_ns : String) (missing : String → Bool)
    (ops : List Operator) :
    subscription_cmds target_ns ops = ops.map (sub_apply_cmd target_ns) ∧
    (subscription_cmds target_ns ops) <:+ (deploy_cmds catsrc_ns target_ns missing ops) :=
  ⟨rfl, ⟨apply_catalog_sources_cmds catsrc_ns target_ns missing ops, rfl⟩⟩

/-- Claim C5, counterexample.  With a non-default target namespace, one
operator and one catalog-source file, the program applies the OperatorGroup
(inside `handle_namespaces`) before the catalog sources, while the claim
places it after them: the two command sequences differ. -/
theorem C5_counterexample :
    deploy_cmds "openshift-marketplace" "cp4i" (fun _ => true) [c5_op] =
      ["oc new-project openshift-marketplace", "oc new-project cp4i",
       "oc apply -n cp4i -f operatorgroup-cp4i.yaml",
       "oc apply -n openshift-marketplace -f cs1.yaml",
       "oc apply -n cp4i -f subscription-ibm-mq.yaml"] ∧
    spec_claimed_deploy_cmds "openshift-marketplace" "cp4i" (fun _ => true) [c5_op] =
      ["oc new-project openshift-marketplace", "oc new-project cp4i",
       "oc apply -n openshift-marketplace -f cs1.yaml",
       "oc apply -n cp4i -f operatorgroup-cp4i.yaml",
       "oc apply -n cp4i -f subscription-ibm-mq.yaml"] ∧
    deploy_cmds "openshift-marketplace" "cp4i" (fun _ => true) [c5_op] ≠
      spec_claimed_deploy_cmds "openshift-marketplace" "cp4i" (fun _ => true) [c5_op] := by
  refine ⟨rfl, rfl, ?_⟩
  decide

/-- Claim C5, amended: the fixed apply order is — create missing namespaces
(catalog-source and target namespace, deduplicated), apply the OperatorGroup
file (when the target namespace is not the default), apply the catalog-source
files, apply each subscription file. -/
theorem C5_holds (catsrc_ns target_ns : String) (missing : String → Bool)
    (ops : List Operator) :
    deploy_cmds catsrc_ns target_ns missing ops =
      ns_create_cmds catsrc_ns target_ns missing
        ++ operatorgroup_cmds target_ns
        ++ catalog_source_cmds catsrc_ns ops
        ++ subscription_cmds target_ns ops := by
  simp [deploy_cmds, apply_catalog_sources_cmds, handle_namespaces_cmds,
    List.append_assoc]

/-- Claim C6, counterexample.  When the catalog-sources page yields no CASE
entries (header absent), no operator gets a `case_version`, and `populate`
silently returns an empty map instead of a non-empty set or an error. -/
theorem C6_counterexample :
    populate "16.1.0" c6_page1 none = Except.ok ([] : Dict) := rfl

/-- Claim C6, amended: a successful `populate` result has pairwise-unique
literal names (it is keyed by `literal_name`), but it may be empty — the
non-empty-or-error half of the claim does not hold. -/
theorem C6_holds (version : String) (page1 : List (String × Option SubDoc))
    (page2 : Option (List (String × Option (String × String)))) (r : Dict)
    (h : populate version page1 page2 = Except.ok r) :
    (r.map Prod.fst).Nodup := by
  unfold populate at h
  split at h
  · cases h
  · split at h
    · rw [Except.ok.injEq] at h
      rw [← h]
      exact nodup_finalize _
    · split at h
      · cases h
      · rw [Except.ok.injEq] at h
        rw [← h]
        exact nodup_finalize _

/-- Claim C6, witness: the amended theorem applied to a resolution where one
operator survives. -/
theorem C6_witness :
    populate "16.1.0" c6_page1 c6_page2 = Except.ok c6_resolved ∧
    (c6_resolved.map Prod.fst).Nodup :=
  ⟨rfl, C6_holds "16.1.0" c6_page1 c6_page2 c6_resolved rfl⟩

/-- Claim C7: for each exclusion rule (A bundles B) — `ibm-apiconnect`
bundles `datapower-operator`, `ibm-eventstreams` bundles `ibm-eem-operator` —
a valid explicit selection naming both A and B yields a map that excludes B
and includes A, while a valid explicit selection naming B without A keeps B. -/
theorem C7_holds (A B : String) (hrule : (A, B) ∈ exclusion_rules) (m : Dict) :
    (∀ sel : List String, "all" ∉ sel → A ∈ sel → B ∈ sel →
      (∀ n ∈ sel, (alget m (some n)).isSome) →
      (OperatorHandler_filter m sel).2 = none ∧
      alget (OperatorHandler_filter m sel).1 (some B) = none ∧
      (alget (OperatorHandler_filter m sel).1 (some A)).isSome) ∧
    (∀ sel : List String, "all" ∉ sel → B ∈ sel → A ∉ sel →
      (∀ n ∈ sel, (alget m (some n)).isSome) →
      (OperatorHandler_filter m sel).2 = none ∧
      (alget (OperatorHandler_filter m sel).1 (some B)).isSome) := by
  have hmem : ∀ (x : String) (sel : List String), x ∈ sel →
      (some x : Option String) ∈ sel.map Option.some :=
    fun x sel hx => List.mem_map_of_mem Option.some hx
  have hnmem : ∀ (x : String) (sel : List String), x ∉ sel →
      (some x : Option String) ∉ sel.map Option.some := by
    intro x sel hx hc
    obtain ⟨y, hy, he⟩ := List.mem_map.mp hc
    cases he
    exact hx hy
  constructor
  · intro sel hall hA hB hv
    obtain ⟨d, hd, hget⟩ := select_fold_ok m sel hv []
    have hres : OperatorHandler_filter m sel = (applyExclusions d, none) := by
      simp [OperatorHandler_filter, hall, selectOperators, hd]
    rw [hres]
    have hdA : alget d (some A) = alget m (some A) := by
      rw [hget]; simp [hmem A sel hA]
    have hdB : alget d (some B) = alget m (some B) := by
      rw [hget]; simp [hmem B sel hB]
    have hAs : (alget d (some A)).isSome := by rw [hdA]; exact hv A hA
    have hBs : (alget d (some B)).isSome := by rw [hdB]; exact hv B hB
    simp only [exclusion_rules, List.mem_cons, Prod.mk.injEq,
      List.not_mem_nil, or_false] at hrule
    rcases hrule with ⟨rfl, rfl⟩ | ⟨rfl, rfl⟩
    · exact ⟨rfl, by simp [alget_applyExclusions, hAs],
        by simp [alget_applyExclusions, hAs]⟩
    · exact ⟨rfl, by simp [alget_applyExclusions, hAs],
        by simp [alget_applyExclusions, hAs]⟩
  · intro sel hall hB hnA hv
    obtain ⟨d, hd, hget⟩ := select_fold_ok m sel hv []
    have hres : OperatorHandler_filter m sel = (applyExclusions d, none) := by
      simp [OperatorHandler_filter, hall, selectOperators, hd]
    rw [hres]
    have hdA : alget d (some A) = none := by
      rw [hget]; simp [hnmem A sel hnA, alget]
    have hdB : alget d (some B) = alget m (some B) := by
      rw [hget]; simp [hmem B sel hB]
    have hBs : (alget d (some B)).isSome := by rw [hdB]; exact hv B hB
    simp only [exclusion_rules, List.mem_cons, Prod.mk.injEq,
      List.not_mem_nil, or_false] at hrule
    rcases hrule with ⟨rfl, rfl⟩ | ⟨rfl, rfl⟩
    · refine ⟨rfl, ?_⟩
      simpa [alget_applyExclusions, hdA] using hBs
    · refine ⟨rfl, ?_⟩
      simpa [alget_applyExclusions, hdA] using hBs

/-- Claim C7, witness: both halves of the theorem at the first rule, on a
concrete map holding `ibm-apiconnect`, `datapower-operator` and a
bystander. -/
theorem C7_witness :
    (("ibm-apiconnect", "datapower-operator") ∈ exclusion_rules) ∧
    ((OperatorHandler_filter c7_map ["ibm-apiconnect", "datapower-operator"]).2 = none ∧
      alget (OperatorHandler_filter c7_map ["ibm-apiconnect", "datapower-operator"]).1
        (some "datapower-operator") = none ∧
      (alget (OperatorHandler_filter c7_map ["ibm-apiconnect", "datapower-operator"]).1
        (some "ibm-apiconnect")).isSome) ∧
    ((OperatorHandler_filter c7_map ["datapower-operator"]).2 = none ∧
      (alget (OperatorHandler_filter c7_map ["datapower-operator"]).1
        (some "datapower-operator")).isSome) :=
  ⟨by decide,
    (C7_holds "ibm-apiconnect" "datapower-operator" (by decide) c7_map).1
      ["ibm-apiconnect", "datapower-operator"] (by decide) (by decide) (by decide)
      (by decide),
    (C7_holds "ibm-apiconnect" "datapower-operator" (by decide) c7_map).2
      ["datapower-operator"] (by decide) (by decide) (by decide) (by decide)⟩

/-- Claim C8, counterexample.  A selection that carries the sentinel `all`
next to a name absent from the resolved map does not fail: the unknown name
is never looked up and the full map is kept, refuting the claim for
selections containing `all`. -/
theorem C8_counterexample :
    "zzz-unknown" ∈ (["all", "zzz-unknown"] : List String) ∧
    alget c8_map (some "zzz-unknown") = none ∧
    OperatorHandler_filter c8_map ["all", "zzz-unknown"] = (c8_map, none) := by
  refine ⟨by decide, by decide, ?_⟩
  decide

/-- Claim C8, amended: for a selection not containing the sentinel `all`,
any requested name absent from the resolved map makes the filter raise the
selection error for the first such name, and the operator map is left
unchanged — no partial filtering is applied. -/
theorem C8_holds (m : Dict) (sel : List String) (bad : String)
    (hall : "all" ∉ sel) (hbad : bad ∈ sel) (hnone : alget m (some bad) = none) :
    (OperatorHandler_filter m sel).1 = m ∧
    ∃ b ∈ sel, alget m (some b) = none ∧
      (OperatorHandler_filter m sel).2 = some (selection_error b) := by
  obtain ⟨b, hb, hbn, hrun⟩ := select_fold_error m sel ⟨bad, hbad, hnone⟩ []
  have hres : OperatorHandler_filter m sel = (m, some (selection_error b)) := by
    simp [OperatorHandler_filter, hall, selectOperators, hrun]
  rw [hres]
  exact ⟨rfl, b, hb, hbn, rfl⟩

/-- Claim C8, witness: the amended theorem on a concrete map and an explicit
selection holding one valid and one unknown name. -/
theorem C8_witness :
    ("all" ∉ (["ibm-mq", "zzz-unknown"] : List String) ∧
      "zzz-unknown" ∈ (["ibm-mq", "zzz-unknown"] : List String) ∧
      alget c8_map (some "zzz-unknown") = none) ∧
    ((OperatorHandler_filter c8_map ["ibm-mq", "zzz-unknown"]).1 = c8_map ∧
      ∃ b ∈ (["ibm-mq", "zzz-unknown"] : List String), alget c8_map (some b) = none ∧
        (OperatorHandler_filter c8_map ["ibm-mq", "zzz-unknown"]).2 =
          some (selection_error b)) :=
  ⟨⟨by decide, by decide, by decide⟩,
    C8_holds c8_map ["ibm-mq", "zzz-unknown"] "zzz-unknown" (by decide) (by decide)
      (by decide)⟩

end CP4I
